import Mathlib

/-!
Verification model of the `managed-command` crate (`src/lib.rs`).

`Command::run` spawns one external process with piped stdio, starts three
relay threads (stdin, stdout, stderr) plus a canceller thread, and returns
the triple `(StdinSender, StdoutReceiver, StderrReceiver)`.

The shallow embedding below models:
* bytes as `Nat` (values `0..255`), text chunks as `List Nat`;
* `String::from_utf8_lossy` as `utf8Lossy` (codepoint list output), and the
  strict validity check behind `OsString::into_string` as `utf8Valid`;
* each worker thread as a pure function over its input trace: the list of
  channel messages or pipe reads it would observe, plus how many of its
  pipe/channel operations succeed before the first failure;
* `std::sync::mpsc` channel endpoints (`send`/`recv`) as functions of the
  FIFO buffer contents and whether the other endpoint has been dropped.
-/

/-- Result of decoding one UTF-8 sequence at the head of a byte stream:
either a scalar value `cp` occupying `len` bytes, or an invalid sequence
whose maximal valid prefix spans `len` bytes (Rust replaces exactly those
`len` bytes with one U+FFFD in `from_utf8_lossy`). -/
inductive Utf8Step where
  | char (cp : Nat) (len : Nat)
  | bad (len : Nat)
deriving DecidableEq

/-- A UTF-8 continuation byte (`0x80..=0xBF`). -/
def isCont (b : Nat) : Bool := 0x80 ≤ b && b ≤ 0xBF

/-- Decode one UTF-8 sequence starting at byte `b` with following bytes
`rest`, following the table used by Rust's `core::str` validation
(second-byte ranges special-cased for `0xE0`, `0xED`, `0xF0`, `0xF4`). -/
def utf8Step (b : Nat) (rest : List Nat) : Utf8Step :=
  if b < 0x80 then .char b 1
  else if b < 0xC2 then .bad 1
  else if b ≤ 0xDF then
    match rest with
    | b1 :: _ =>
      if isCont b1 then .char ((b - 0xC0) * 0x40 + (b1 - 0x80)) 2 else .bad 1
    | [] => .bad 1
  else if b ≤ 0xEF then
    let lo := if b = 0xE0 then 0xA0 else 0x80
    let hi := if b = 0xED then 0x9F else 0xBF
    match rest with
    | b1 :: rest1 =>
      if lo ≤ b1 && b1 ≤ hi then
        match rest1 with
        | b2 :: _ =>
          if isCont b2 then
            .char ((b - 0xE0) * 0x1000 + (b1 - 0x80) * 0x40 + (b2 - 0x80)) 3
          else .bad 2
        | [] => .bad 2
      else .bad 1
    | [] => .bad 1
  else if b ≤ 0xF4 then
    let lo := if b = 0xF0 then 0x90 else 0x80
    let hi := if b = 0xF4 then 0x8F else 0xBF
    match rest with
    | b1 :: rest1 =>
      if lo ≤ b1 && b1 ≤ hi then
        match rest1 with
        | b2 :: rest2 =>
          if isCont b2 then
            match rest2 with
            | b3 :: _ =>
              if isCont b3 then
                .char ((b - 0xF0) * 0x40000 + (b1 - 0x80) * 0x1000 +
                  (b2 - 0x80) * 0x40 + (b3 - 0x80)) 4
              else .bad 3
            | [] => .bad 3
          else .bad 2
        | [] => .bad 2
      else .bad 1
    | [] => .bad 1
  else .bad 1

/-- Fuel-driven worker for `utf8Lossy`; each step consumes at least one
byte, so `fuel = l.length` always suffices. -/
def utf8LossyGo : Nat → List Nat → List Nat
  | _, [] => []
  | 0, _ :: _ => []
  | fuel + 1, b :: rest =>
    match utf8Step b rest with
    | .char cp len => cp :: utf8LossyGo fuel (rest.drop (len - 1))
    | .bad len => 0xFFFD :: utf8LossyGo fuel (rest.drop (len - 1))

/-- Model of Rust `String::from_utf8_lossy`, producing the list of Unicode
scalar values: valid sequences decode, each maximal invalid prefix becomes
one replacement character U+FFFD. -/
def utf8Lossy (l : List Nat) : List Nat := utf8LossyGo l.length l

/-- Fuel-driven worker for `utf8Valid`. -/
def utf8ValidGo : Nat → List Nat → Bool
  | _, [] => true
  | 0, _ :: _ => false
  | fuel + 1, b :: rest =>
    match utf8Step b rest with
    | .char _ len => utf8ValidGo fuel (rest.drop (len - 1))
    | .bad _ => false

/-- Model of strict UTF-8 validity: `OsString::into_string` succeeds exactly
on byte sequences for which this holds (Unix `OsString` is a byte string). -/
def utf8Valid (l : List Nat) : Bool := utf8ValidGo l.length l

theorem utf8LossyGo_cons_ne_nil (fuel b : Nat) (rest : List Nat) :
    utf8LossyGo (fuel + 1) (b :: rest) ≠ [] := by
  unfold utf8LossyGo
  cases utf8Step b rest <;> simp

theorem utf8Lossy_ne_nil (b : Nat) (rest : List Nat) :
    utf8Lossy (b :: rest) ≠ [] := by
  have h := utf8LossyGo_cons_ne_nil rest.length b rest
  simpa [utf8Lossy] using h

/-! ## Stdin relay thread

```rust
while let Ok(stdin_text) = rx_in.recv() {
    stdin.write_all(stdin_text.as_bytes()).unwrap();
}
```

Its input trace is the list of chunks the channel delivers before it is
closed (each chunk given by its `as_bytes` byte list), plus `accepts`, the
number of whole-chunk `write_all` calls the pipe accepts before the process
end of the pipe is closed and a write fails. A failed `write_all` makes the
`.unwrap()` panic: the thread unwinds, which still drops (releases) the
`stdin` pipe endpoint, and — the `JoinHandle` from `thread::spawn` being
discarded — no error value ever reaches the caller. -/

structure StdinRelayResult where
  /-- Flat byte sequence written to the process input pipe. -/
  bytesWritten : List Nat
  /-- The chunks written, each whole, in the order received. -/
  chunksWritten : List (List Nat)
  /-- The thread ended by the unwrap panic (write failure) rather than by
  the channel closing. -/
  panicked : Bool
  /-- The `stdin` pipe endpoint was dropped when the thread finished
  (true both on normal return and on unwind). -/
  pipeReleased : Bool
  /-- An error value was surfaced to the caller of `run` (never: the join
  handle is discarded). -/
  callerError : Bool
deriving DecidableEq

def stdinRelay : List (List Nat) → Nat → StdinRelayResult
  | [], _ => ⟨[], [], false, true, false⟩
  | _ :: _, 0 => ⟨[], [], true, true, false⟩
  | c :: cs, a + 1 =>
    let t := stdinRelay cs a
    ⟨c ++ t.bytesWritten, c :: t.chunksWritten, t.panicked, true, false⟩

/-! ## Stdout / stderr relay threads

```rust
let mut buf: [u8; 128] = [0; 128];
while let Ok(read_bytes) = stdout.read(&mut buf) {
    if read_bytes == 0 { break; }
    let stdout_text = String::from_utf8_lossy(&buf[0..read_bytes]);
    if tx_out.send(stdout_text.into_owned()).is_err() { break; }
}
```

Input trace: the list of successful `read` results (each the byte list the
OS delivered into `buf`, hence of length at most 128), plus `accepts`, the
number of `send` calls that succeed before the caller drops the receiver.
An exhausted trace with no zero-length read models a worker still blocked
in `read` (exit `pending`). -/

inductive RelayExit where
  | eof
  | recvDropped
  | pending
deriving DecidableEq

structure OutRelayResult where
  /-- Messages sent on the channel, in arrival order. -/
  sent : List (List Nat)
  /-- Number of `read` calls the loop performed. -/
  readsDone : Nat
  exit : RelayExit
deriving DecidableEq

def stdoutRelay : List (List Nat) → Nat → OutRelayResult
  | [], _ => ⟨[], 0, .pending⟩
  | r :: rs, a =>
    if r = [] then ⟨[], 1, .eof⟩
    else
      match a with
      | 0 => ⟨[], 1, .recvDropped⟩
      | a + 1 =>
        let t := stdoutRelay rs a
        ⟨utf8Lossy r :: t.sent, t.readsDone + 1, t.exit⟩

/-- The stderr relay thread: the source duplicates the stdout loop verbatim
with `stderr` and `tx_err` in place of `stdout` and `tx_out`. -/
def stderrRelay : List (List Nat) → Nat → OutRelayResult
  | [], _ => ⟨[], 0, .pending⟩
  | r :: rs, a =>
    if r = [] then ⟨[], 1, .eof⟩
    else
      match a with
      | 0 => ⟨[], 1, .recvDropped⟩
      | a + 1 =>
        let t := stderrRelay rs a
        ⟨utf8Lossy r :: t.sent, t.readsDone + 1, t.exit⟩

/-- The 128-byte stack buffer passed to every `read` call. -/
def BUF_LEN : Nat := 128

/-- One `read(&mut buf)` against a pipe currently holding `stream`: the OS
returns some positive number `sz` of pending bytes, truncated to the buffer
size 128. -/
def osRead (stream : List Nat) (sz : Nat) : List Nat :=
  stream.take (min sz BUF_LEN)

/-! ## Canceller thread

```rust
if let Ok(_) = canceller.recv() {
    let _ = pid.kill();
}
```

Input trace: the list of events the subscription delivers before the
broadcaster is dropped (`recv` returns `Ok` iff an event is available), and
whether the single best-effort `kill` would fail (result discarded either
way). -/

structure WatcherResult where
  killsIssued : Nat
  eventsConsumed : Nat
  /-- An error was surfaced anywhere (never: the kill result is `let _ =`
  and the thread handle is discarded). -/
  errorSurfaced : Bool
deriving DecidableEq

def canceller (events : List Unit) (killFails : Bool) : WatcherResult :=
  match events, killFails with
  | [], _ => ⟨0, 0, false⟩
  | _ :: _, _ => ⟨1, 1, false⟩

/-! ## `Command::run` control skeleton

Ordering in the source: (1) `get_program().to_owned().into_string().unwrap()`
— panics if the program name is not valid Unicode; (2) the three channels
are created; (3) `.spawn()?` — a spawn failure propagates as
`Error::IoError` before any thread is started; (4) one relay thread per
pipe endpoint the platform provided (`if let Some`), always the canceller
thread; (5) the handle triple is returned. -/

/-- Which of the child's three pipe endpoints `spawn` provided
(`pid.stdin` / `pid.stdout` / `pid.stderr` being `Some`). -/
structure ChildPipes where
  stdin : Bool
  stdout : Bool
  stderr : Bool
deriving DecidableEq

inductive RunOutcome where
  /-- `into_string().unwrap()` panicked on a non-Unicode program name. -/
  | panicked
  /-- `.spawn()?` returned the OS error to the caller. -/
  | spawnError
  /-- The handle triple was returned. -/
  | ok
deriving DecidableEq

structure RunTrace where
  outcome : RunOutcome
  spawnAttempted : Bool
  stdinWorkerStarted : Bool
  stdoutWorkerStarted : Bool
  stderrWorkerStarted : Bool
  watcherStarted : Bool
  handlesReturned : Bool
deriving DecidableEq

def Command.run (progBytes : List Nat) (spawned : Option ChildPipes) :
    RunTrace :=
  if utf8Valid progBytes = false then
    ⟨.panicked, false, false, false, false, false, false⟩
  else
    match spawned with
    | none => ⟨.spawnError, true, false, false, false, false, false⟩
    | some p => ⟨.ok, true, p.stdin, p.stdout, p.stderr, true, true⟩

/-! ## Caller-facing handles

`StdinSender.send` wraps `Sender::send`, which fails exactly when the
`Receiver` has been dropped; `rx_in` is owned by the stdin relay loop, so
the receiver is dropped exactly when that thread has terminated. The
channel is unbounded (`mpsc::channel`), so a send to a live receiver
appends to the FIFO buffer and never blocks. `StdoutReceiver.recv` /
`StderrReceiver.recv` wrap `Receiver::recv`, which pops the oldest buffered
message, blocks on an empty buffer while a sender is alive, and fails with
`RecvError` exactly when the buffer is empty and the sender (owned by the
corresponding relay thread) has been dropped. -/

inductive RecvOutcome where
  | got (msg : List Nat)
  /-- `RecvError`: channel empty and sender dropped. -/
  | closed
  /-- The call blocks until a message or a disconnect arrives. -/
  | blocks
deriving DecidableEq

def StdinSender.send (stdinRelayTerminated : Bool) (buf : List (List Nat))
    (input : List Nat) : Except Unit (List (List Nat)) :=
  if stdinRelayTerminated then .error () else .ok (buf ++ [input])

def StdoutReceiver.recv (stdoutRelayTerminated : Bool)
    (buf : List (List Nat)) : RecvOutcome :=
  match buf with
  | m :: _ => .got m
  | [] => if stdoutRelayTerminated then .closed else .blocks

def StderrReceiver.recv (stderrRelayTerminated : Bool)
    (buf : List (List Nat)) : RecvOutcome :=
  match buf with
  | m :: _ => .got m
  | [] => if stderrRelayTerminated then .closed else .blocks

/-- The successive `read` results a pipe holding `stream` can produce under
an OS schedule `szs` (the schedule entry `sz` delivers `sz + 1` pending
bytes, truncated to the 128-byte buffer): once the stream is exhausted the
next read returns zero bytes (end-of-stream). -/
def pipeReads : List Nat → List Nat → List (List Nat)
  | stream, [] => if stream = [] then [[]] else []
  | stream, sz :: szs =>
    if stream = [] then [[]]
    else osRead stream (sz + 1) :: pipeReads (stream.drop (min (sz + 1) BUF_LEN)) szs

theorem pipeReads_length_le (stream : List Nat) (szs : List Nat) :
    ∀ rd ∈ pipeReads stream szs, rd.length ≤ BUF_LEN := by
  induction szs generalizing stream with
  | nil =>
    intro rd hrd
    by_cases hs : stream = [] <;> simp [pipeReads, hs] at hrd
    simp [hrd]
  | cons sz szs ih =>
    intro rd hrd
    by_cases hs : stream = []
    · simp [pipeReads, hs] at hrd
      simp [hrd]
    · simp [pipeReads, hs] at hrd
      rcases hrd with rfl | hrd
      · exact le_trans (List.length_take_le _ _) (min_le_right _ _)
      · exact ih _ rd hrd

theorem stderrRelay_eq_stdoutRelay (reads : List (List Nat)) (a : Nat) :
    stderrRelay reads a = stdoutRelay reads a := by
  induction reads generalizing a with
  | nil => rfl
  | cons r rs ih =>
    by_cases hr : r = []
    · simp [stderrRelay, stdoutRelay, hr]
    · cases a with
      | zero => simp [stderrRelay, stdoutRelay, hr]
      | succ a => simp [stderrRelay, stdoutRelay, hr, ih]

theorem utf8Lossy_ne_nil_of_arg_ne_nil {r : List Nat} (h : r ≠ []) :
    utf8Lossy r ≠ [] := by
  cases r with
  | nil => exact absurd rfl h
  | cons b rest => exact utf8Lossy_ne_nil b rest

/-- C1: when a `write_all` of a received chunk fails, the stdin relay stops
its loop (no chunk past the failing one is processed: exactly the first `a`
chunks were written), the pipe endpoint is released (the thread unwinds and
drops `stdin`), and no error is raised to the caller — the write failure
degrades to silent worker termination (`callerError = false`), the panic
staying inside the detached thread. -/
theorem stdin_write_failure_silent (chunks : List (List Nat)) (a : Nat)
    (h : a < chunks.length) :
    (stdinRelay chunks a).panicked = true
    ∧ (stdinRelay chunks a).pipeReleased = true
    ∧ (stdinRelay chunks a).callerError = false
    ∧ (stdinRelay chunks a).chunksWritten = chunks.take a := by
  induction chunks generalizing a with
  | nil => simp at h
  | cons c cs ih =>
    cases a with
    | zero => simp [stdinRelay]
    | succ a =>
      have h2 : a < cs.length := by simpa using h
      obtain ⟨p1, p2, p3, p4⟩ := ih a h2
      simp [stdinRelay, p1, p2, p3, p4]

theorem stdin_write_failure_silent_witness :
    (stdinRelay [[0]] 0).panicked = true
    ∧ (stdinRelay [[0]] 0).pipeReleased = true
    ∧ (stdinRelay [[0]] 0).callerError = false
    ∧ (stdinRelay [[0]] 0).chunksWritten = List.take 0 [[0]] :=
  stdin_write_failure_silent [[0]] 0 (by decide)

/-- C2: when the OS spawn fails (`.spawn()` returns `Err`, here `spawned =
none`), `run` returns the spawn error synchronously: no relay worker and no
watcher is started and no handle triple is produced. (The hypothesis
restricts to program names that survive the earlier
`into_string().unwrap()`, since otherwise the spawn is never reached.) -/
theorem run_spawn_failure (progBytes : List Nat)
    (h : utf8Valid progBytes = true) :
    Command.run progBytes none =
      ⟨.spawnError, true, false, false, false, false, false⟩ := by
  simp [Command.run, h]

theorem run_spawn_failure_witness :
    Command.run [101] none =
      ⟨.spawnError, true, false, false, false, false, false⟩ :=
  run_spawn_failure [101] (by decide)

/-- C3: if the process never closes its input while chunks remain (the pipe
accepts at least `chunks.length` writes), the byte sequence written to the
input pipe is exactly the concatenation of the chunks' raw bytes in send
order, each chunk written whole and exactly once, and no write fails. -/
theorem stdin_relay_writes_concatenation (chunks : List (List Nat)) (a : Nat)
    (h : chunks.length ≤ a) :
    (stdinRelay chunks a).bytesWritten = chunks.flatten
    ∧ (stdinRelay chunks a).chunksWritten = chunks
    ∧ (stdinRelay chunks a).panicked = false := by
  induction chunks generalizing a with
  | nil => simp [stdinRelay]
  | cons c cs ih =>
    cases a with
    | zero => simp at h
    | succ a =>
      have h2 : cs.length ≤ a := by simpa using h
      obtain ⟨p1, p2, p3⟩ := ih a h2
      simp [stdinRelay, p1, p2, p3]

theorem stdin_relay_writes_concatenation_witness :
    (stdinRelay [[1, 2], [3]] 2).bytesWritten = List.flatten [[1, 2], [3]]
    ∧ (stdinRelay [[1, 2], [3]] 2).chunksWritten = [[1, 2], [3]]
    ∧ (stdinRelay [[1, 2], [3]] 2).panicked = false :=
  stdin_relay_writes_concatenation [[1, 2], [3]] 2 (by decide)

/-- C4: the stdout relay reads at most 128 bytes per `read` (every read the
pipe model can produce is bounded by `BUF_LEN`); a zero-byte read
terminates the worker with no message; a read of `N > 0` bytes whose send
succeeds contributes exactly the lossy decoding of those `N` bytes as one
message, in arrival order, counting one read; a failed send (receiver
dropped) terminates the worker after that one read, with no further read;
and the stderr relay behaves identically. -/
theorem out_relay_loop_behavior (r : List Nat) (rs : List (List Nat))
    (a : Nat) (stream : List Nat) (szs : List Nat) (h : r ≠ []) :
    (∀ rd ∈ pipeReads stream szs, rd.length ≤ BUF_LEN)
    ∧ stdoutRelay ([] :: rs) a = ⟨[], 1, .eof⟩
    ∧ stdoutRelay (r :: rs) (a + 1) =
        ⟨utf8Lossy r :: (stdoutRelay rs a).sent,
          (stdoutRelay rs a).readsDone + 1, (stdoutRelay rs a).exit⟩
    ∧ stdoutRelay (r :: rs) 0 = ⟨[], 1, .recvDropped⟩
    ∧ stderrRelay (r :: rs) a = stdoutRelay (r :: rs) a := by
  refine ⟨pipeReads_length_le stream szs, ?_, ?_, ?_,
    stderrRelay_eq_stdoutRelay _ _⟩
  · simp [stdoutRelay]
  · simp [stdoutRelay, h]
  · simp [stdoutRelay, h]

theorem out_relay_loop_behavior_witness :
    stdoutRelay [[104]] (0 + 1) =
      ⟨utf8Lossy [104] :: (stdoutRelay [] 0).sent,
        (stdoutRelay [] 0).readsDone + 1, (stdoutRelay [] 0).exit⟩ :=
  (out_relay_loop_behavior [104] [] 0 [1] [0] (by decide)).2.2.1

/-- C5: the cancellation watcher kills the process only if the subscription
delivers an event: on a subscription that closes with no event it
terminates with zero kills; on a delivered event it kills once; and a kill
failure is swallowed — the result is the same whether the kill fails or
succeeds, and no error is ever surfaced. -/
theorem watcher_kills_only_on_event (killFails : Bool) (es : List Unit) :
    canceller [] killFails = ⟨0, 0, false⟩
    ∧ canceller (() :: es) killFails = ⟨1, 1, false⟩
    ∧ (∀ events, (canceller events killFails).errorSurfaced = false)
    ∧ (∀ events, canceller events true = canceller events false) := by
  refine ⟨rfl, rfl, ?_, ?_⟩
  · intro events
    cases events <;> rfl
  · intro events
    cases events <;> rfl

/-- C6: `StdinSender.send` fails exactly when the stdin relay has
terminated (its `Receiver` dropped), otherwise appending the chunk to the
FIFO buffer; `StdoutReceiver.recv` returns the next buffered chunk in
order, and fails with `RecvError` exactly when the relay has terminated and
no chunk remains buffered; `StderrReceiver.recv` behaves the same way. -/
theorem handle_send_recv_semantics (term : Bool) (buf : List (List Nat))
    (x m : List Nat) (rest : List (List Nat)) :
    (StdinSender.send term buf x = .error () ↔ term = true)
    ∧ StdinSender.send false buf x = .ok (buf ++ [x])
    ∧ StdoutReceiver.recv term (m :: rest) = .got m
    ∧ (StdoutReceiver.recv term buf = .closed ↔ term = true ∧ buf = [])
    ∧ StderrReceiver.recv term buf = StdoutReceiver.recv term buf := by
  refine ⟨?_, rfl, rfl, ?_, ?_⟩
  · cases term <;> simp [StdinSender.send]
  · cases term <;> cases buf <;> simp [StdoutReceiver.recv]
  · cases buf <;> rfl

/-- C7: raising the cancellation event twice is observably equivalent to
raising it once: the watcher consumes exactly one event, issues at most one
kill, and terminates, so a second event changes nothing. -/
theorem cancel_twice_equals_once (killFails : Bool) :
    canceller [(), ()] killFails = canceller [()] killFails
    ∧ (∀ events, (canceller events killFails).killsIssued ≤ 1)
    ∧ (∀ es, (canceller (() :: es) killFails).eventsConsumed = 1) := by
  refine ⟨rfl, ?_, fun _ => rfl⟩
  intro events
  cases events <;> simp [canceller]

/-- C8: for a process specification whose program name is not valid Unicode
(e.g., the single byte `0xFF`), `run` panics in `into_string().unwrap()`
before attempting to spawn, so whatever the spawn would have done, no spawn
error is ever returned to the caller for such a specification. -/
theorem run_panics_on_non_unicode_program (spawned : Option ChildPipes) :
    utf8Valid [0xFF] = false
    ∧ (Command.run [0xFF] spawned).outcome = .panicked
    ∧ (Command.run [0xFF] spawned).spawnAttempted = false
    ∧ (Command.run [0xFF] spawned).outcome ≠ .spawnError := by
  have h : utf8Valid [0xFF] = false := by decide
  refine ⟨h, ?_, ?_, ?_⟩ <;> simp [Command.run, h]

/-- C9: every chunk the stdout relay delivers on its channel is non-empty
and is the lossy decoding of the bytes of one read of at most 128 bytes; a
zero-byte read never produces a message (each message's source read is
non-empty). -/
theorem out_messages_bounded_nonempty (reads : List (List Nat)) (a : Nat)
    (hb : ∀ r ∈ reads, r.length ≤ BUF_LEN) :
    ∀ m ∈ (stdoutRelay reads a).sent,
      m ≠ [] ∧ ∃ r ∈ reads, r ≠ [] ∧ r.length ≤ BUF_LEN ∧ m = utf8Lossy r := by
  induction reads generalizing a with
  | nil => simp [stdoutRelay]
  | cons r rs ih =>
    by_cases hr : r = []
    · simp [stdoutRelay, hr]
    · cases a with
      | zero => simp [stdoutRelay, hr]
      | succ a =>
        intro m hm
        have hstep : stdoutRelay (r :: rs) (a + 1) =
            ⟨utf8Lossy r :: (stdoutRelay rs a).sent,
              (stdoutRelay rs a).readsDone + 1, (stdoutRelay rs a).exit⟩ := by
          simp [stdoutRelay, hr]
        rw [hstep] at hm
        rcases List.mem_cons.mp hm with rfl | hm
        · exact ⟨utf8Lossy_ne_nil_of_arg_ne_nil hr,
            r, List.mem_cons_self r rs, hr, hb r (List.mem_cons_self r rs), rfl⟩
        · obtain ⟨h1, rr, hrr, h2, h3, h4⟩ :=
            ih a (fun y hy => hb y (List.mem_cons_of_mem r hy)) m hm
          exact ⟨h1, rr, List.mem_cons_of_mem r hrr, h2, h3, h4⟩

theorem out_messages_bounded_nonempty_witness :
    ([104] : List Nat) ≠ []
    ∧ ∃ r ∈ [[104]], r ≠ ([] : List Nat) ∧ r.length ≤ BUF_LEN
      ∧ [104] = utf8Lossy r :=
  out_messages_bounded_nonempty [[104]] 1 (by decide) [104] (by decide)

set_option linter.unusedVariables false in
/-- C10: while the stdin relay thread is alive (its receiver not dropped),
`send` succeeds for every buffer state — the channel is unbounded, so it
never blocks — and its result does not depend on whether the process has
already exited; `send` fails exactly when the relay thread has terminated
and dropped the receiver. -/
theorem send_succeeds_while_relay_alive (processExited : Bool)
    (buf : List (List Nat)) (x : List Nat) :
    StdinSender.send false buf x = .ok (buf ++ [x])
    ∧ (∀ term buf2 y, StdinSender.send term buf2 y = .error () ↔
        term = true) := by
  refine ⟨rfl, ?_⟩
  intro term buf2 y
  cases term <;> simp [StdinSender.send]
